import Mathlib

/-!
Verification development for the X3 code-executor bot (src/main.py).

The engine part of the program is embedded shallowly:

* `Task` mirrors the Python class `Task` (src/main.py lines 39-52); wall-clock
  instants and durations are abstracted as natural numbers.
* `CodeExecutorBot`'s mutable state (lines 72-85) becomes `BotState`; the queue
  holds `Task` values (Python holds references; with unique ids the worker's
  write-back to the `tasks` map reproduces the aliasing exactly).
* `subprocess.run`'s three possible resolutions (normal return,
  `TimeoutExpired`, any other exception) become the `RunOutcome` datum fed to
  the embedded `_execute_task`.
* The worker loop (`_task_worker`, lines 102-117) together with `add_task`
  (87-100) is modelled as a step relation: `Op.add` is a call to `add_task`,
  `Op.claim` is the worker dequeuing a task and `_execute_task` marking it
  "running" (line 121), `Op.finish` is the rest of `_execute_task` plus the
  history update of `_task_worker`.
* Filesystem and process actions of `_execute_task` (temp-file creation,
  spawning the child, removal in the `finally` block) are recorded as an
  `Effect` trace by `execute_task_effects`.
-/

namespace X3

/-- Mirrors `TASK_HISTORY_SIZE = 100` (src/main.py line 37). -/
def TASK_HISTORY_SIZE : Nat := 100

/-- Mirrors the Python class `Task` (src/main.py lines 39-52).  Timestamps are
abstract instants (`Option Nat`, `None` initially) and `execution_time` is a
duration in abstract units (the Python float seconds). -/
structure Task where
  id : String
  user_id : Nat
  username : String
  code : String
  status : String
  result : String
  start_time : Option Nat
  end_time : Option Nat
  execution_time : Nat
  output : String
  error : String
deriving DecidableEq

/-- Mirrors `Task.__init__` (src/main.py lines 41-52). -/
def Task.init (task_id : String) (user_id : Nat) (code : String) : Task :=
  { id := task_id
    user_id := user_id
    username := ""
    code := code
    status := "pending"
    result := ""
    start_time := none
    end_time := none
    execution_time := 0
    output := ""
    error := "" }

/-- Mirrors the `self.system_stats` dictionary (src/main.py lines 77-82). -/
structure SystemStats where
  total_tasks : Nat
  successful_tasks : Nat
  failed_tasks : Nat
  total_execution_time : Nat
deriving DecidableEq

/-- The initial value of `self.system_stats` (src/main.py lines 77-82). -/
def SystemStats.start : SystemStats :=
  { total_tasks := 0
    successful_tasks := 0
    failed_tasks := 0
    total_execution_time := 0 }

/-- Mirrors one value of the `self.user_stats` defaultdict (src/main.py
line 76). -/
structure UserStat where
  tasks : Nat
  success : Nat
  errors : Nat
deriving DecidableEq

/-- The defaultdict default `\x7b'tasks': 0, 'success': 0, 'errors': 0\x7d`. -/
def UserStat.start : UserStat := { tasks := 0, success := 0, errors := 0 }

/-- Association-list lookup, mirroring Python `dict.get` (first match; keys are
kept unique, as in a dict). -/
def lookupAssoc (m : List (String × Task)) (k : String) : Option Task :=
  match m with
  | [] => none
  | (k0, v0) :: rest => if k0 = k then some v0 else lookupAssoc rest k

/-- Association-list update, mirroring Python `dict.__setitem__`: replace in
place when the key is present (Python dicts keep insertion order on
overwrite), append otherwise. -/
def insertAssoc (m : List (String × Task)) (k : String) (v : Task) :
    List (String × Task) :=
  match m with
  | [] => [(k, v)]
  | (k0, v0) :: rest =>
      if k0 = k then (k, v) :: rest else (k0, v0) :: insertAssoc rest k v

/-- Defaultdict read of `self.user_stats[u]`. -/
def getUserStat (m : List (Nat × UserStat)) (u : Nat) : UserStat :=
  match m with
  | [] => UserStat.start
  | (u0, v0) :: rest => if u0 = u then v0 else getUserStat rest u

/-- Defaultdict write of `self.user_stats[u]`. -/
def setUserStat (m : List (Nat × UserStat)) (u : Nat) (v : UserStat) :
    List (Nat × UserStat) :=
  match m with
  | [] => [(u, v)]
  | (u0, v0) :: rest =>
      if u0 = u then (u, v) :: rest else (u0, v0) :: setUserStat rest u v

/-- The mutable state of `CodeExecutorBot` (src/main.py lines 72-85).
`current` holds the task the worker has dequeued and marked `"running"` but
not yet finished; `task_queue` holds the pending tasks in FIFO order. -/
structure BotState where
  tasks : List (String × Task)
  task_queue : List Task
  current : Option Task
  task_history : List Task
  user_stats : List (Nat × UserStat)
  system_stats : SystemStats
deriving DecidableEq

/-- The state right after `CodeExecutorBot.__init__` (src/main.py 72-85). -/
def initState : BotState :=
  { tasks := []
    task_queue := []
    current := none
    task_history := []
    user_stats := []
    system_stats := SystemStats.start }

/-- The task record `add_task` builds before enqueuing (src/main.py lines
89-93).  The task id (built in Python from time, user id and a hash of the
code) and the current instant `now` are inputs of the model. -/
def newTask (task_id : String) (user_id : Nat) (username : String)
    (now : Nat) (code : String) : Task :=
  { Task.init task_id user_id code with
      username := username
      start_time := some now
      status := "pending" }

/-- The queue/map/stats mutation of `add_task` (src/main.py lines 95-98). -/
def add_task (s : BotState) (task_id : String) (user_id : Nat)
    (username : String) (now : Nat) (code : String) : BotState :=
  let task := newTask task_id user_id username now code
  let us := getUserStat s.user_stats user_id
  { s with
      tasks := insertAssoc s.tasks task_id task
      task_queue := s.task_queue ++ [task]
      user_stats := setUserStat s.user_stats user_id
        { us with tasks := us.tasks + 1 }
      system_stats :=
        { s.system_stats with
            total_tasks := s.system_stats.total_tasks + 1 } }

/-- The three ways `subprocess.run` can resolve inside `_execute_task`
(src/main.py lines 130-167): a normal return with exit code, captured
stdout/stderr and an elapsed duration; `TimeoutExpired`; or any other
exception with its message `str(e)`. -/
inductive RunOutcome where
  | finished (returncode : Int) (stdout stderr : String)
      (elapsed : Nat) (endTime : Nat)
  | timedOut (endTime : Nat)
  | raised (msg : String) (endTime : Nat)
deriving DecidableEq

/-- The literal timeout diagnostic assigned at src/main.py line 155. -/
def timeout_msg : String := "⏱️ انتهى وقت التنفيذ (60 ثانية كحد أقصى)"

/-- The synthetic diagnostic built at src/main.py line 163 from `str(e)`. -/
def exec_error_msg (msg : String) : String :=
  "❌ خطأ أثناء التنفيذ:\n" ++ msg

/-- The part of `_execute_task` after `task.status = "running"` (src/main.py
lines 128-167): finalize the task record according to how `subprocess.run`
resolved. -/
def finalizeTask (t : Task) (o : RunOutcome) : Task :=
  match o with
  | .finished rc out err elapsed endT =>
      { t with
          execution_time := elapsed
          output := out
          error := err
          status := if rc = 0 then "completed" else "failed"
          end_time := some endT }
  | .timedOut endT =>
      { t with
          status := "failed"
          error := timeout_msg
          end_time := some endT }
  | .raised m endT =>
      { t with
          status := "failed"
          error := exec_error_msg m
          end_time := some endT }

/-- The whole of `_execute_task`'s effect on the task record (src/main.py
lines 119-167): set `"running"`, then finalize. -/
def runTask (t : Task) (o : RunOutcome) : Task :=
  finalizeTask { t with status := "running" } o

/-- The system-stats update performed by `_execute_task` (src/main.py
lines 146-151, 158-159, 166-167).  Note that `total_execution_time` is not
touched on any path, exactly as in the source. -/
def statsAfterExec (st : SystemStats) (o : RunOutcome) : SystemStats :=
  match o with
  | .finished rc _ _ _ _ =>
      if rc = 0 then
        { st with successful_tasks := st.successful_tasks + 1 }
      else
        { st with failed_tasks := st.failed_tasks + 1 }
  | .timedOut _ => { st with failed_tasks := st.failed_tasks + 1 }
  | .raised _ _ => { st with failed_tasks := st.failed_tasks + 1 }

/-- The per-user stats update performed by `_execute_task` (src/main.py
lines 147, 150, 158, 166). -/
def userStatsAfterExec (m : List (Nat × UserStat)) (u : Nat)
    (o : RunOutcome) : List (Nat × UserStat) :=
  let us := getUserStat m u
  match o with
  | .finished rc _ _ _ _ =>
      if rc = 0 then setUserStat m u { us with success := us.success + 1 }
      else setUserStat m u { us with errors := us.errors + 1 }
  | .timedOut _ => setUserStat m u { us with errors := us.errors + 1 }
  | .raised _ _ => setUserStat m u { us with errors := us.errors + 1 }

/-- The history update of `_task_worker` (src/main.py lines 110-112): append,
then `pop(0)` once the length exceeds `TASK_HISTORY_SIZE`. -/
def record (h : List Task) (t : Task) : List Task :=
  let h2 := h ++ [t]
  if TASK_HISTORY_SIZE < h2.length then h2.tail else h2

/-- The command `_execute_task` hands to `subprocess.run`.  The source only
ever builds `[os.sys.executable, script_path]` (line 131); `shell` is the
alternative a shell-mode runner would use and never occurs. -/
inductive Cmd where
  | interp (script : String)
  | shell (line : String)
deriving DecidableEq

/-- Filesystem / process actions of `_execute_task` (src/main.py 123-173):
temp-file creation with the task's code (124-126), spawning the child (130),
and the removal attempt in the `finally` block (169-173), whose success flag
records whether `os.remove` itself succeeded. -/
inductive Effect where
  | createTemp (path : String) (contents : String)
  | spawn (c : Cmd)
  | removeTemp (path : String) (ok : Bool)
deriving DecidableEq

/-- Whether an effect is a shell spawn (never produced by the source). -/
def isShellSpawn : Effect → Bool
  | .spawn (.shell _) => true
  | _ => false

/-- The effect trace of one `_execute_task` call (src/main.py 123-173): the
code is written verbatim to a fresh temp file, the interpreter is invoked on
that file, and the `finally` block attempts removal on every path —
`removeOk` is whether `os.remove` succeeded; its failure is swallowed by the
bare `except: pass` (lines 172-173). -/
def execute_task_effects (t : Task) (scriptPath : String)
    (removeOk : Bool) : List Effect :=
  [Effect.createTemp scriptPath t.code,
   Effect.spawn (Cmd.interp scriptPath),
   Effect.removeTemp scriptPath removeOk]

/-- The complete `_execute_task` (src/main.py lines 119-173): the finalized
task record and the effect trace. -/
def execute_task (t : Task) (scriptPath : String) (o : RunOutcome)
    (removeOk : Bool) : Task × List Effect :=
  (runTask t o, execute_task_effects t scriptPath removeOk)

/-- Atomic steps of the system: `add` is a call to `add_task`; `claim` is the
worker dequeuing the queue head and `_execute_task` setting it `"running"`
(src/main.py lines 106, 121); `finish` is the remainder of `_execute_task`
plus `_task_worker`'s history update (lines 110-112, 128-173). -/
inductive Op where
  | add (task_id : String) (user_id : Nat) (username : String)
      (now : Nat) (code : String)
  | claim
  | finish (scriptPath : String) (o : RunOutcome) (removeOk : Bool)

/-- One step of the embedded system. -/
def step (s : BotState) : Op → BotState
  | .add task_id user_id username now code =>
      add_task s task_id user_id username now code
  | .claim =>
      match s.task_queue, s.current with
      | t :: rest, none =>
          let t2 := { t with status := "running" }
          { s with
              task_queue := rest
              current := some t2
              tasks := insertAssoc s.tasks t2.id t2 }
      | _, _ => s
  | .finish _ o _ =>
      match s.current with
      | some t =>
          let t2 := finalizeTask t o
          { s with
              current := none
              tasks := insertAssoc s.tasks t2.id t2
              task_history := record s.task_history t2
              user_stats := userStatsAfterExec s.user_stats t2.user_id o
              system_stats := statsAfterExec s.system_stats o }
      | none => s

/-- Side condition of a step: `add_task`'s id (time + user + hash in Python)
does not collide with an existing id — the spec itself calls a collision a
correctness bug.  Worker steps have no side condition. -/
def stepOk (s : BotState) : Op → Prop
  | .add task_id _ _ _ _ => lookupAssoc s.tasks task_id = none
  | _ => True

/-- States reachable from the freshly initialized bot by collision-free
steps. -/
inductive Reachable : BotState → Prop where
  | init : Reachable initState
  | step {s : BotState} (op : Op) : Reachable s → stepOk s op →
      Reachable (step s op)

/-- Mirrors `CodeExecutorBot.get_task` (src/main.py lines 175-177). -/
def get_task (s : BotState) (task_id : String) : Option Task :=
  lookupAssoc s.tasks task_id

/-- A status string is terminal when it is `"completed"` or `"failed"`. -/
def isTerminal (st : String) : Bool :=
  st = "completed" || st = "failed"

/-- Rank of a status in the lifecycle order
`pending → running → terminal`. -/
def statusRank (st : String) : Nat :=
  if st = "pending" then 0 else if st = "running" then 1 else 2

/-- Number of map entries holding a terminal task. -/
def countTerminal (m : List (String × Task)) : Nat :=
  (m.filter (fun p => isTerminal p.2.status)).length

/-- Mirrors the `task.output[:500] + ("..." ...)` preview built by
`status_command` (src/main.py lines 312, 319). -/
def text_preview (txt : String) : String :=
  txt.take 500 ++ (if 500 < txt.length then "..." else "")

/-- The outcome-dependent tail that `status_command` appends to the status
text (src/main.py lines 310-320): output block or the no-output notice for
`completed`, error block for `failed`, nothing otherwise. -/
def status_suffix (t : Task) : String :=
  if t.status = "completed" then
    if t.output ≠ "" then
      "\n📤 **المخرجات:**\n```\n" ++ text_preview t.output ++ "\n```"
    else
      "\n✅ **تم التنفيذ بدون مخرجات**"
  else if t.status = "failed" then
    if t.error ≠ "" then
      "\n❌ **الخطأ:**\n```\n" ++ text_preview t.error ++ "\n```"
    else ""
  else ""

/-! Sample concrete runs, used to evaluate the embedded program on explicit
inputs (one group per claim, so each stays self-contained). -/

/-- Sample run for C1: one submission, not yet executed. -/
def c1_submitted : BotState :=
  step initState (Op.add "task_1" 7 "alice" 0 "x = 1")

/-- Sample run for C2: one submission, not yet executed. -/
def c2_submitted : BotState :=
  step initState (Op.add "w2" 3 "bob" 0 "print(2)")

/-- Sample history insertions for C3: 150 terminal tasks. -/
def c3_sample : List Task := List.replicate 150 (Task.init "h" 0 "x")

/-- Sample run for C7: one submission that completes normally with an
elapsed duration of 5 units. -/
def c7_done : BotState :=
  step (step (step initState (Op.add "t1" 5 "user" 0 "print(1)")) Op.claim)
    (Op.finish "/tmp/x.py" (RunOutcome.finished 0 "1\n" "" 5 9) true)

/-- Sample run for C7: one submission that times out. -/
def c7_timeout : BotState :=
  step (step (step initState (Op.add "t2" 6 "user" 0 "loop")) Op.claim)
    (Op.finish "/tmp/y.py" (RunOutcome.timedOut 70) true)

/-- Sample run for C10: one submission, not yet executed. -/
def c10_submitted : BotState :=
  step initState (Op.add "p10" 9 "carol" 0 "print(3)")

/-- Structural invariant of every reachable `BotState`: the task map has
unique keys, each entry is stored under its own id, queued tasks are
`"pending"` and aliased by the map, queue ids are distinct, the claimed task
(if any) is `"running"` and aliased by the map, the stats counters agree with
the map, and the history is bounded. -/
structure Inv (s : BotState) : Prop where
  nodupKeys : (s.tasks.map Prod.fst).Nodup
  keyId : ∀ p ∈ s.tasks, p.2.id = p.1
  qPending : ∀ t ∈ s.task_queue, t.status = "pending"
  qAlias : ∀ t ∈ s.task_queue, lookupAssoc s.tasks t.id = some t
  qNodup : (s.task_queue.map Task.id).Nodup
  cRunning : ∀ t, s.current = some t → t.status = "running"
  cAlias : ∀ t, s.current = some t → lookupAssoc s.tasks t.id = some t
  total : s.system_stats.total_tasks = s.tasks.length
  termCount : s.system_stats.successful_tasks + s.system_stats.failed_tasks
      = countTerminal s.tasks
  histBound : s.task_history.length ≤ TASK_HISTORY_SIZE

/-! Association-list lemmas. -/

theorem lookup_insertAssoc_self (m : List (String × Task)) (k : String)
    (v : Task) : lookupAssoc (insertAssoc m k v) k = some v := by
  induction m with
  | nil => simp [insertAssoc, lookupAssoc]
  | cons p rest ih =>
      obtain ⟨k0, v0⟩ := p
      by_cases h : k0 = k
      · simp [insertAssoc, lookupAssoc, h]
      · simp [insertAssoc, lookupAssoc, h, ih]

theorem lookup_insertAssoc_ne (m : List (String × Task)) (k k' : String)
    (v : Task) (h : k' ≠ k) :
    lookupAssoc (insertAssoc m k v) k' = lookupAssoc m k' := by
  have hne : ¬k = k' := fun h2 => h h2.symm
  induction m with
  | nil => simp [insertAssoc, lookupAssoc, hne]
  | cons p rest ih =>
      obtain ⟨k0, v0⟩ := p
      by_cases h0 : k0 = k
      · subst h0
        simp [insertAssoc, lookupAssoc, hne]
      · simp [insertAssoc, lookupAssoc, h0, ih]

theorem lookupAssoc_mem (m : List (String × Task)) (k : String) (v : Task)
    (h : lookupAssoc m k = some v) : (k, v) ∈ m := by
  induction m with
  | nil => simp [lookupAssoc] at h
  | cons p rest ih =>
      obtain ⟨k0, v0⟩ := p
      by_cases h0 : k0 = k
      · subst h0
        simp [lookupAssoc] at h
        subst h
        exact List.mem_cons_self _ _
      · simp [lookupAssoc, h0] at h
        exact List.mem_cons_of_mem _ (ih h)

theorem lookupAssoc_key_mem (m : List (String × Task)) (k : String)
    (v : Task) (h : lookupAssoc m k = some v) : k ∈ m.map Prod.fst := by
  have := lookupAssoc_mem m k v h
  exact List.mem_map_of_mem Prod.fst this

theorem lookupAssoc_eq_none_of_not_mem (m : List (String × Task))
    (k : String) (h : k ∉ m.map Prod.fst) : lookupAssoc m k = none := by
  induction m with
  | nil => rfl
  | cons p rest ih =>
      obtain ⟨k0, v0⟩ := p
      simp only [List.map_cons, List.mem_cons, not_or] at h
      have h1 : ¬k0 = k := fun h2 => h.1 h2.symm
      simp [lookupAssoc, h1, ih h.2]

theorem keys_insertAssoc_mem (m : List (String × Task)) (k : String)
    (v v' : Task) (h : lookupAssoc m k = some v) :
    (insertAssoc m k v').map Prod.fst = m.map Prod.fst := by
  induction m with
  | nil => simp [lookupAssoc] at h
  | cons p rest ih =>
      obtain ⟨k0, v0⟩ := p
      by_cases h0 : k0 = k
      · subst h0
        simp [insertAssoc]
      · simp [lookupAssoc, h0] at h
        simp [insertAssoc, h0, ih h]

theorem keys_insertAssoc_new (m : List (String × Task)) (k : String)
    (v : Task) (h : lookupAssoc m k = none) :
    (insertAssoc m k v).map Prod.fst = m.map Prod.fst ++ [k] := by
  induction m with
  | nil => simp [insertAssoc]
  | cons p rest ih =>
      obtain ⟨k0, v0⟩ := p
      by_cases h0 : k0 = k
      · subst h0
        simp [lookupAssoc] at h
      · simp [lookupAssoc, h0] at h
        simp [insertAssoc, h0, ih h]

theorem length_insertAssoc_mem (m : List (String × Task)) (k : String)
    (v v' : Task) (h : lookupAssoc m k = some v) :
    (insertAssoc m k v').length = m.length := by
  have h2 := keys_insertAssoc_mem m k v v' h
  have h3 := congrArg List.length h2
  simpa using h3

theorem length_insertAssoc_new (m : List (String × Task)) (k : String)
    (v : Task) (h : lookupAssoc m k = none) :
    (insertAssoc m k v).length = m.length + 1 := by
  have h2 := keys_insertAssoc_new m k v h
  have h3 := congrArg List.length h2
  simpa using h3

theorem mem_insertAssoc (m : List (String × Task)) (k : String) (v : Task)
    (p : String × Task) (h : p ∈ insertAssoc m k v) :
    p ∈ m ∨ p = (k, v) := by
  induction m with
  | nil =>
      simp [insertAssoc] at h
      exact Or.inr h
  | cons q rest ih =>
      obtain ⟨k0, v0⟩ := q
      by_cases h0 : k0 = k
      · subst h0
        simp [insertAssoc] at h
        rcases h with h | h
        · exact Or.inr h
        · exact Or.inl (List.mem_cons_of_mem _ h)
      · simp [insertAssoc, h0] at h
        rcases h with h | h
        · exact Or.inl (by simp [h])
        · rcases ih h with h2 | h2
          · exact Or.inl (List.mem_cons_of_mem _ h2)
          · exact Or.inr h2

theorem lookupAssoc_isSome_of_mem (m : List (String × Task)) (k : String)
    (h : k ∈ m.map Prod.fst) : (lookupAssoc m k).isSome := by
  induction m with
  | nil => simp at h
  | cons p rest ih =>
      obtain ⟨k0, v0⟩ := p
      by_cases h0 : k0 = k
      · simp [lookupAssoc, h0]
      · simp only [List.map_cons, List.mem_cons] at h
        rcases h with h | h
        · exact absurd h.symm h0
        · simp [lookupAssoc, h0, ih h]

theorem lookupAssoc_not_mem_of_none (m : List (String × Task)) (k : String)
    (h : lookupAssoc m k = none) : k ∉ m.map Prod.fst := by
  intro hm
  have h2 := lookupAssoc_isSome_of_mem m k hm
  rw [h] at h2
  simp at h2

theorem countTerminal_cons (k0 : String) (v0 : Task)
    (m : List (String × Task)) :
    countTerminal ((k0, v0) :: m)
      = (if isTerminal v0.status then 1 else 0) + countTerminal m := by
  by_cases h : isTerminal v0.status
  · simp [countTerminal, List.filter_cons, h]
    omega
  · simp [countTerminal, List.filter_cons, h]

theorem countTerminal_insertAssoc (m : List (String × Task)) (k : String)
    (v v' : Task) (h : lookupAssoc m k = some v) :
    countTerminal (insertAssoc m k v')
      + (if isTerminal v.status then 1 else 0)
    = countTerminal m + (if isTerminal v'.status then 1 else 0) := by
  induction m with
  | nil => simp [lookupAssoc] at h
  | cons p rest ih =>
      obtain ⟨k0, v0⟩ := p
      by_cases h0 : k0 = k
      · subst h0
        have hv : v0 = v := by simpa [lookupAssoc] using h
        subst hv
        have e1 : insertAssoc ((k0, v0) :: rest) k0 v' = (k0, v') :: rest := by
          simp [insertAssoc]
        rw [e1, countTerminal_cons, countTerminal_cons]
        omega
      · have h2 : lookupAssoc rest k = some v := by
          simpa [lookupAssoc, h0] using h
        have e1 : insertAssoc ((k0, v0) :: rest) k v'
            = (k0, v0) :: insertAssoc rest k v' := by
          simp [insertAssoc, h0]
        rw [e1, countTerminal_cons, countTerminal_cons]
        have := ih h2
        omega

theorem countTerminal_insertAssoc_new (m : List (String × Task))
    (k : String) (v : Task) (h : lookupAssoc m k = none) :
    countTerminal (insertAssoc m k v)
      = countTerminal m + (if isTerminal v.status then 1 else 0) := by
  induction m with
  | nil =>
      simp only [insertAssoc]
      rw [countTerminal_cons]
      simp [countTerminal]
  | cons p rest ih =>
      obtain ⟨k0, v0⟩ := p
      by_cases h0 : k0 = k
      · simp [lookupAssoc, h0] at h
      · have h2 : lookupAssoc rest k = none := by
          simpa [lookupAssoc, h0] using h
        have e1 : insertAssoc ((k0, v0) :: rest) k v
            = (k0, v0) :: insertAssoc rest k v := by
          simp [insertAssoc, h0]
        rw [e1, countTerminal_cons, countTerminal_cons, ih h2]
        omega

/-! The reachable-state invariant. -/

theorem inv_init : Inv initState := by
  constructor <;> simp [initState, SystemStats.start, countTerminal]

/-- The finalized task is always terminal (lines 143, 154, 162 each assign a
terminal status). -/
theorem finalizeTask_terminal (t : Task) (o : RunOutcome) :
    isTerminal (finalizeTask t o).status = true := by
  cases o with
  | finished rc out err el e =>
      by_cases h : rc = 0 <;> simp [finalizeTask, isTerminal, h]
  | timedOut e => simp [finalizeTask, isTerminal]
  | raised m e => simp [finalizeTask, isTerminal]

theorem finalizeTask_id (t : Task) (o : RunOutcome) :
    (finalizeTask t o).id = t.id := by
  cases o with
  | finished rc out err el e => simp [finalizeTask]
  | timedOut e => simp [finalizeTask]
  | raised m e => simp [finalizeTask]

theorem finalizeTask_user_id (t : Task) (o : RunOutcome) :
    (finalizeTask t o).user_id = t.user_id := by
  cases o with
  | finished rc out err el e => simp [finalizeTask]
  | timedOut e => simp [finalizeTask]
  | raised m e => simp [finalizeTask]

theorem finalizeTask_code (t : Task) (o : RunOutcome) :
    (finalizeTask t o).code = t.code := by
  cases o with
  | finished rc out err el e => simp [finalizeTask]
  | timedOut e => simp [finalizeTask]
  | raised m e => simp [finalizeTask]

theorem statsAfterExec_total (st : SystemStats) (o : RunOutcome) :
    (statsAfterExec st o).total_tasks = st.total_tasks := by
  cases o with
  | finished rc out err el e =>
      by_cases h : rc = 0 <;> simp [statsAfterExec, h]
  | timedOut e => simp [statsAfterExec]
  | raised m e => simp [statsAfterExec]

theorem statsAfterExec_terminal_sum (st : SystemStats) (o : RunOutcome) :
    (statsAfterExec st o).successful_tasks
        + (statsAfterExec st o).failed_tasks
      = st.successful_tasks + st.failed_tasks + 1 := by
  cases o with
  | finished rc out err el e =>
      by_cases h : rc = 0 <;> simp [statsAfterExec, h] <;> omega
  | timedOut e => simp [statsAfterExec]; omega
  | raised m e => simp [statsAfterExec]; omega

theorem record_length_le (h : List Task) (t : Task)
    (hb : h.length ≤ TASK_HISTORY_SIZE) :
    (record h t).length ≤ TASK_HISTORY_SIZE := by
  show (let h2 := h ++ [t];
      if TASK_HISTORY_SIZE < h2.length then h2.tail else h2).length
    ≤ TASK_HISTORY_SIZE
  simp only []
  split
  · simp_all
  · simp_all

theorem isTerminal_pending : isTerminal "pending" = false := by decide

theorem isTerminal_running : isTerminal "running" = false := by decide

theorem inv_step_add (s : BotState) (task_id : String) (user_id : Nat)
    (username : String) (now : Nat) (code : String) (hInv : Inv s)
    (hok : lookupAssoc s.tasks task_id = none) :
    Inv (add_task s task_id user_id username now code) := by
  have hnm : task_id ∉ s.tasks.map Prod.fst :=
    lookupAssoc_not_mem_of_none s.tasks task_id hok
  have hqid : ∀ u ∈ s.task_queue, u.id ≠ task_id := by
    intro u hu he
    exact hnm (he ▸ lookupAssoc_key_mem s.tasks u.id u (hInv.qAlias u hu))
  have hcid : ∀ c, s.current = some c → c.id ≠ task_id := by
    intro c hc he
    exact hnm (he ▸ lookupAssoc_key_mem s.tasks c.id c (hInv.cAlias c hc))
  refine
    { nodupKeys := ?_
      keyId := ?_
      qPending := ?_
      qAlias := ?_
      qNodup := ?_
      cRunning := ?_
      cAlias := ?_
      total := ?_
      termCount := ?_
      histBound := ?_ }
  · show ((insertAssoc s.tasks task_id
        (newTask task_id user_id username now code)).map Prod.fst).Nodup
    rw [keys_insertAssoc_new s.tasks task_id _ hok]
    simp [List.nodup_append, hInv.nodupKeys, hnm]
  · intro p hp
    rcases mem_insertAssoc s.tasks task_id _ p hp with h | h
    · exact hInv.keyId p h
    · subst h
      rfl
  · intro t ht
    rcases List.mem_append.1 ht with h | h
    · exact hInv.qPending t h
    · simp at h
      subst h
      rfl
  · intro t ht
    rcases List.mem_append.1 ht with h | h
    · show lookupAssoc (insertAssoc s.tasks task_id _) t.id = some t
      rw [lookup_insertAssoc_ne s.tasks task_id t.id _ (hqid t h)]
      exact hInv.qAlias t h
    · simp at h
      subst h
      exact lookup_insertAssoc_self s.tasks task_id _
  · show ((s.task_queue
        ++ [newTask task_id user_id username now code]).map Task.id).Nodup
    rw [List.map_append]
    have hni : task_id ∉ s.task_queue.map Task.id := by
      intro hm
      rcases List.mem_map.1 hm with ⟨u, hu, he⟩
      exact hqid u hu he
    simp [List.nodup_append, hInv.qNodup, hni]
    exact fun x hx => hqid x hx
  · exact hInv.cRunning
  · intro c hc
    show lookupAssoc (insertAssoc s.tasks task_id _) c.id = some c
    rw [lookup_insertAssoc_ne s.tasks task_id c.id _ (hcid c hc)]
    exact hInv.cAlias c hc
  · show s.system_stats.total_tasks + 1
      = (insertAssoc s.tasks task_id _).length
    rw [length_insertAssoc_new s.tasks task_id _ hok, hInv.total]
  · show s.system_stats.successful_tasks + s.system_stats.failed_tasks
      = countTerminal (insertAssoc s.tasks task_id
          (newTask task_id user_id username now code))
    rw [countTerminal_insertAssoc_new s.tasks task_id _ hok]
    have hs : (newTask task_id user_id username now code).status
        = "pending" := rfl
    rw [hs, isTerminal_pending]
    simp [hInv.termCount]
  · exact hInv.histBound

theorem inv_step_claim_core (s : BotState) (t : Task) (rest : List Task)
    (hInv : Inv s) (hq : s.task_queue = t :: rest) :
    Inv { s with
            task_queue := rest
            current := some { t with status := "running" }
            tasks := insertAssoc s.tasks t.id { t with status := "running" } }
    := by
  have htq : t ∈ s.task_queue := by
    rw [hq]
    exact List.mem_cons_self _ _
  have hpend : t.status = "pending" := hInv.qPending t htq
  have halias : lookupAssoc s.tasks t.id = some t := hInv.qAlias t htq
  have hnd : t.id ∉ rest.map Task.id ∧ (rest.map Task.id).Nodup := by
    have h1 := hInv.qNodup
    rw [hq] at h1
    simpa [List.nodup_cons] using h1
  have hrestid : ∀ u ∈ rest, u.id ≠ t.id := by
    intro u hu he
    exact hnd.1 (he ▸ List.mem_map_of_mem Task.id hu)
  have hrestmem : ∀ u ∈ rest, u ∈ s.task_queue := by
    intro u hu
    rw [hq]
    exact List.mem_cons_of_mem _ hu
  refine
    { nodupKeys := ?_
      keyId := ?_
      qPending := ?_
      qAlias := ?_
      qNodup := ?_
      cRunning := ?_
      cAlias := ?_
      total := ?_
      termCount := ?_
      histBound := ?_ }
  · show ((insertAssoc s.tasks t.id
        { t with status := "running" }).map Prod.fst).Nodup
    rw [keys_insertAssoc_mem s.tasks t.id t _ halias]
    exact hInv.nodupKeys
  · intro p hp
    rcases mem_insertAssoc s.tasks t.id _ p hp with h | h
    · exact hInv.keyId p h
    · subst h
      rfl
  · intro u hu
    exact hInv.qPending u (hrestmem u hu)
  · intro u hu
    show lookupAssoc (insertAssoc s.tasks t.id _) u.id = some u
    rw [lookup_insertAssoc_ne s.tasks t.id u.id _ (hrestid u hu)]
    exact hInv.qAlias u (hrestmem u hu)
  · exact hnd.2
  · intro x hx
    have hx2 : x = { t with status := "running" } := by
      simpa using hx.symm
    subst hx2
    rfl
  · intro x hx
    have hx2 : x = { t with status := "running" } := by
      simpa using hx.symm
    subst hx2
    exact lookup_insertAssoc_self s.tasks t.id _
  · show s.system_stats.total_tasks = (insertAssoc s.tasks t.id _).length
    rw [length_insertAssoc_mem s.tasks t.id t _ halias]
    exact hInv.total
  · show s.system_stats.successful_tasks + s.system_stats.failed_tasks
      = countTerminal (insertAssoc s.tasks t.id { t with status := "running" })
    have h1 := countTerminal_insertAssoc s.tasks t.id t
      { t with status := "running" } halias
    have hr : isTerminal ({ t with status := "running" } : Task).status
        = false := isTerminal_running
    rw [hpend, isTerminal_pending, hr] at h1
    simp at h1
    rw [h1]
    exact hInv.termCount
  · exact hInv.histBound

theorem inv_step_finish_core (s : BotState) (c : Task) (o : RunOutcome)
    (hInv : Inv s) (hc : s.current = some c) :
    Inv { s with
            current := none
            tasks := insertAssoc s.tasks (finalizeTask c o).id
              (finalizeTask c o)
            task_history := record s.task_history (finalizeTask c o)
            user_stats := userStatsAfterExec s.user_stats
              (finalizeTask c o).user_id o
            system_stats := statsAfterExec s.system_stats o } := by
  have hrun : c.status = "running" := hInv.cRunning c hc
  have halias : lookupAssoc s.tasks c.id = some c := hInv.cAlias c hc
  have hid : (finalizeTask c o).id = c.id := finalizeTask_id c o
  have hqid : ∀ u ∈ s.task_queue, u.id ≠ c.id := by
    intro u hu he
    have h1 := hInv.qAlias u hu
    rw [he, halias] at h1
    have h2 : c = u := by simpa using h1
    have h3 := hInv.qPending u hu
    rw [← h2, hrun] at h3
    simp at h3
  refine
    { nodupKeys := ?_
      keyId := ?_
      qPending := ?_
      qAlias := ?_
      qNodup := ?_
      cRunning := ?_
      cAlias := ?_
      total := ?_
      termCount := ?_
      histBound := ?_ }
  · show ((insertAssoc s.tasks (finalizeTask c o).id
        (finalizeTask c o)).map Prod.fst).Nodup
    rw [hid, keys_insertAssoc_mem s.tasks c.id c _ halias]
    exact hInv.nodupKeys
  · intro p hp
    rcases mem_insertAssoc s.tasks (finalizeTask c o).id _ p hp with h | h
    · exact hInv.keyId p h
    · subst h
      rfl
  · exact hInv.qPending
  · intro u hu
    show lookupAssoc (insertAssoc s.tasks (finalizeTask c o).id _) u.id
      = some u
    rw [hid, lookup_insertAssoc_ne s.tasks c.id u.id _ (hqid u hu)]
    exact hInv.qAlias u hu
  · exact hInv.qNodup
  · intro x hx
    exact Option.noConfusion hx
  · intro x hx
    exact Option.noConfusion hx
  · show (statsAfterExec s.system_stats o).total_tasks
      = (insertAssoc s.tasks (finalizeTask c o).id (finalizeTask c o)).length
    rw [statsAfterExec_total, hid, length_insertAssoc_mem s.tasks c.id c _
      halias]
    exact hInv.total
  · show (statsAfterExec s.system_stats o).successful_tasks
        + (statsAfterExec s.system_stats o).failed_tasks
      = countTerminal (insertAssoc s.tasks (finalizeTask c o).id
          (finalizeTask c o))
    rw [statsAfterExec_terminal_sum, hid]
    have h1 := countTerminal_insertAssoc s.tasks c.id c
      (finalizeTask c o) halias
    rw [hrun, isTerminal_running, finalizeTask_terminal c o] at h1
    simp at h1
    rw [h1, hInv.termCount]
  · exact record_length_le s.task_history _ hInv.histBound

theorem inv_step (s : BotState) (op : Op) (hInv : Inv s)
    (hok : stepOk s op) : Inv (step s op) := by
  cases op with
  | add task_id user_id username now code =>
      exact inv_step_add s task_id user_id username now code hInv hok
  | claim =>
      cases hq : s.task_queue with
      | nil =>
          have e : step s Op.claim = s := by
            cases hc : s.current <;> simp [step, hq, hc]
          rw [e]
          exact hInv
      | cons t rest =>
          cases hc : s.current with
          | some c =>
              have e : step s Op.claim = s := by simp [step, hq, hc]
              rw [e]
              exact hInv
          | none =>
              have e : step s Op.claim
                  = { s with
                        task_queue := rest
                        current := some { t with status := "running" }
                        tasks := insertAssoc s.tasks t.id
                          { t with status := "running" } } := by
                simp [step, hq, hc]
              rw [e]
              exact inv_step_claim_core s t rest hInv hq
  | finish sp o rOk =>
      cases hc : s.current with
      | none =>
          have e : step s (Op.finish sp o rOk) = s := by simp [step, hc]
          rw [e]
          exact hInv
      | some c =>
          have e : step s (Op.finish sp o rOk)
              = { s with
                    current := none
                    tasks := insertAssoc s.tasks (finalizeTask c o).id
                      (finalizeTask c o)
                    task_history := record s.task_history (finalizeTask c o)
                    user_stats := userStatsAfterExec s.user_stats
                      (finalizeTask c o).user_id o
                    system_stats := statsAfterExec s.system_stats o } := by
            simp [step, hc]
          rw [e]
          exact inv_step_finish_core s c o hInv hc

theorem step_add_eq (s : BotState) (task_id : String) (user_id : Nat)
    (username : String) (now : Nat) (code : String) :
    step s (Op.add task_id user_id username now code)
      = add_task s task_id user_id username now code := rfl

theorem step_claim_eq (s : BotState) (t : Task) (rest : List Task)
    (hq : s.task_queue = t :: rest) (hc : s.current = none) :
    step s Op.claim
      = { s with
            task_queue := rest
            current := some { t with status := "running" }
            tasks := insertAssoc s.tasks t.id { t with status := "running" } }
    := by
  simp [step, hq, hc]

theorem step_claim_eq_nil (s : BotState) (hq : s.task_queue = []) :
    step s Op.claim = s := by
  cases hc : s.current <;> simp [step, hq, hc]

theorem step_claim_eq_busy (s : BotState) (c : Task)
    (hc : s.current = some c) : step s Op.claim = s := by
  cases hq : s.task_queue <;> simp [step, hq, hc]

theorem step_finish_eq (s : BotState) (c : Task) (sp : String)
    (o : RunOutcome) (rOk : Bool) (hc : s.current = some c) :
    step s (Op.finish sp o rOk)
      = { s with
            current := none
            tasks := insertAssoc s.tasks (finalizeTask c o).id
              (finalizeTask c o)
            task_history := record s.task_history (finalizeTask c o)
            user_stats := userStatsAfterExec s.user_stats
              (finalizeTask c o).user_id o
            system_stats := statsAfterExec s.system_stats o } := by
  simp [step, hc]

theorem step_finish_eq_none (s : BotState) (sp : String) (o : RunOutcome)
    (rOk : Bool) (hc : s.current = none) :
    step s (Op.finish sp o rOk) = s := by
  simp [step, hc]

theorem inv_of_reachable (s : BotState) (h : Reachable s) : Inv s := by
  induction h with
  | init => exact inv_init
  | step op _ hok ih => exact inv_step _ op ih hok

/-! History ring-buffer lemmas. -/

theorem record_eq_append (h : List Task) (t : Task)
    (hlt : h.length < TASK_HISTORY_SIZE) : record h t = h ++ [t] := by
  show (let h2 := h ++ [t];
      if TASK_HISTORY_SIZE < h2.length then h2.tail else h2) = h ++ [t]
  simp only []
  rw [if_neg]
  simp only [List.length_append, List.length_cons, List.length_nil]
  omega

theorem record_eq_tail (h : List Task) (t : Task)
    (hge : TASK_HISTORY_SIZE ≤ h.length) :
    record h t = (h ++ [t]).tail := by
  show (let h2 := h ++ [t];
      if TASK_HISTORY_SIZE < h2.length then h2.tail else h2) = (h ++ [t]).tail
  simp only []
  rw [if_pos]
  simp only [List.length_append, List.length_cons, List.length_nil]
  omega

theorem foldl_record_eq (ts : List Task) (h : List Task)
    (hb : h.length ≤ TASK_HISTORY_SIZE) :
    ts.foldl record h
      = (h ++ ts).drop ((h ++ ts).length - TASK_HISTORY_SIZE) := by
  induction ts generalizing h with
  | nil =>
      rw [List.append_nil, List.foldl_nil, Nat.sub_eq_zero_of_le hb,
        List.drop_zero]
  | cons t ts ih =>
      rw [List.foldl_cons]
      by_cases hlen : h.length < TASK_HISTORY_SIZE
      · rw [record_eq_append h t hlen]
        have hb2 : (h ++ [t]).length ≤ TASK_HISTORY_SIZE := by
          simp only [List.length_append, List.length_cons, List.length_nil]
          omega
        rw [ih (h ++ [t]) hb2, List.append_assoc, List.singleton_append]
      · have hge : TASK_HISTORY_SIZE ≤ h.length := by omega
        rw [record_eq_tail h t hge]
        have hb2 : ((h ++ [t]).tail).length ≤ TASK_HISTORY_SIZE := by
          simp only [List.length_tail, List.length_append, List.length_cons,
            List.length_nil]
          omega
        rw [ih _ hb2]
        have hT : TASK_HISTORY_SIZE = 100 := rfl
        obtain ⟨c, h', rfl⟩ : ∃ c h', h = c :: h' := by
          cases h with
          | nil =>
              rw [hT] at hge
              simp at hge
          | cons c h' => exact ⟨c, h', rfl⟩
        simp only [List.cons_append, List.tail_cons]
        rw [List.append_assoc, List.singleton_append]
        have hlen' : (c :: h').length = TASK_HISTORY_SIZE := by
          have := hb
      -- length of c :: h' is both ≤ and ≥ the capacity
          omega
        have e2 : (c :: (h' ++ t :: ts)).length - TASK_HISTORY_SIZE
            = ((h' ++ t :: ts).length - TASK_HISTORY_SIZE) + 1 := by
          simp only [List.length_cons, List.length_append] at hlen' ⊢
          omega
        rw [e2, List.drop_succ_cons]

/-! Auxiliary facts about the runner's diagnostics and status ranks. -/

theorem exec_error_msg_ne_empty (m : String) : exec_error_msg m ≠ "" := by
  intro h
  have h2 := congrArg String.length h
  simp [exec_error_msg, String.length_append] at h2
  exact absurd h2.1 (by decide)

theorem timeout_msg_ne_empty : timeout_msg ≠ "" := by decide

theorem statusRank_of_terminal (st : String) (h : isTerminal st = true) :
    statusRank st = 2 := by
  simp [isTerminal] at h
  rcases h with h | h
  · subst h
    decide
  · subst h
    decide

theorem statsAfterExec_le (st : SystemStats) (o : RunOutcome) :
    st.total_tasks ≤ (statsAfterExec st o).total_tasks
    ∧ st.successful_tasks ≤ (statsAfterExec st o).successful_tasks
    ∧ st.failed_tasks ≤ (statsAfterExec st o).failed_tasks
    ∧ st.total_execution_time ≤ (statsAfterExec st o).total_execution_time
    := by
  cases o with
  | finished rc out err el e =>
      by_cases h : rc = 0 <;>
        refine ⟨?_, ?_, ?_, ?_⟩ <;> simp [statsAfterExec, h]
  | timedOut e =>
      refine ⟨?_, ?_, ?_, ?_⟩ <;> simp [statsAfterExec]
  | raised m e =>
      refine ⟨?_, ?_, ?_, ?_⟩ <;> simp [statsAfterExec]

/-! Claim theorems. -/

/-- C4, counterexample: a child that exits with a non-zero code and an empty
stderr (e.g. `sys.exit(1)` printing nothing) yields a `failed` task whose
`error` field is the empty string — no synthetic diagnostic is supplied, so
the claim that every failed Task carries a non-empty error is false. -/
theorem failed_error_empty_cex :
    (runTask (Task.init "task_c4" 1 "import sys\nsys.exit(1)")
        (RunOutcome.finished 1 "" "" 2 3)).status = "failed"
    ∧ (runTask (Task.init "task_c4" 1 "import sys\nsys.exit(1)")
        (RunOutcome.finished 1 "" "" 2 3)).error = "" :=
  ⟨rfl, rfl⟩

/-- C4, amended: a Task that fails by timeout or by an execution exception
carries a non-empty synthetic diagnostic; a Task that fails by non-zero child
exit carries exactly the child's captured stderr, which may be empty. -/
theorem failed_error_taxonomy (t : Task) (o : RunOutcome)
    (hfail : (runTask t o).status = "failed") :
    (∀ rc out err el e, o = RunOutcome.finished rc out err el e
        → (runTask t o).error = err)
    ∧ (∀ e, o = RunOutcome.timedOut e
        → (runTask t o).error = timeout_msg ∧ (runTask t o).error ≠ "")
    ∧ (∀ m e, o = RunOutcome.raised m e
        → (runTask t o).error = exec_error_msg m ∧ (runTask t o).error ≠ "")
    := by
  refine ⟨?_, ?_, ?_⟩
  · intro rc out err el e he
    subst he
    rfl
  · intro e he
    subst he
    exact ⟨rfl, timeout_msg_ne_empty⟩
  · intro m e he
    subst he
    exact ⟨rfl, exec_error_msg_ne_empty m⟩

theorem failed_error_taxonomy_witness :
    (runTask (Task.init "task_c4w" 2 "while True: pass")
        (RunOutcome.timedOut 60)).error = timeout_msg
    ∧ (runTask (Task.init "task_c4w" 2 "while True: pass")
        (RunOutcome.timedOut 60)).error ≠ "" :=
  (failed_error_taxonomy (Task.init "task_c4w" 2 "while True: pass")
    (RunOutcome.timedOut 60) rfl).2.1 60 rfl

/-- C5, counterexample: a child exiting 0 with no output is recorded with
`output = ""` — the empty string itself, not a distinguishable sentinel
value, contrary to the claim about the recorded result. -/
theorem no_output_sentinel_cex :
    (runTask (Task.init "task_c5" 1 "pass")
        (RunOutcome.finished 0 "" "" 1 2)).status = "completed"
    ∧ (runTask (Task.init "task_c5" 1 "pass")
        (RunOutcome.finished 0 "" "" 1 2)).output = "" :=
  ⟨rfl, rfl⟩

/-- C5, amended: the recorded `output` of a successful no-output run is the
empty string, but the status rendering layer (`status_command`) shows a
distinct non-empty "executed without output" notice for a completed task
with empty output, while pending and running tasks get no such suffix — so
"ran, printed nothing" stays distinguishable from "did not run" in the
rendered status, not in the stored field. -/
theorem no_output_rendering (t : Task) (h1 : t.status = "completed")
    (h2 : t.output = "") :
    status_suffix t = "\n✅ **تم التنفيذ بدون مخرجات**"
    ∧ status_suffix t ≠ ""
    ∧ (∀ u : Task, u.status = "pending" → status_suffix u = "")
    ∧ (∀ u : Task, u.status = "running" → status_suffix u = "") := by
  have e : status_suffix t = "\n✅ **تم التنفيذ بدون مخرجات**" := by
    simp [status_suffix, h1, h2]
  refine ⟨e, ?_, ?_, ?_⟩
  · rw [e]
    decide
  · intro u hu
    simp [status_suffix, hu]
  · intro u hu
    simp [status_suffix, hu]

theorem no_output_rendering_witness :
    status_suffix (runTask (Task.init "task_c5w" 1 "pass")
        (RunOutcome.finished 0 "" "" 1 2))
      = "\n✅ **تم التنفيذ بدون مخرجات**" :=
  (no_output_rendering (runTask (Task.init "task_c5w" 1 "pass")
    (RunOutcome.finished 0 "" "" 1 2)) rfl rfl).1

/-- C6: on every exit path of `_execute_task` (normal completion, non-zero
exit, timeout, exception — all values of `o`) the effect trace starts by
creating the temporary source file and ends with the removal attempt for
that same file, and the task's recorded result is the same whether the
removal succeeds or fails (`finally` + bare `except: pass`,
src/main.py lines 169-173). -/
theorem temp_file_cleanup (t : Task) (p : String) (o : RunOutcome)
    (rOk : Bool) :
    (execute_task t p o rOk).2.head? = some (Effect.createTemp p t.code)
    ∧ (execute_task t p o rOk).2.getLast? = some (Effect.removeTemp p rOk)
    ∧ (execute_task t p o true).1 = (execute_task t p o false).1
    ∧ (execute_task t p o rOk).1 = runTask t o :=
  ⟨rfl, rfl, rfl, rfl⟩

/-- C8: when the child exceeds the wall-clock budget (`TimeoutExpired`,
src/main.py lines 153-159) the task ends `failed`, carries the non-empty
timeout diagnostic, and no partial output is recorded — the `output` field
stays empty, so partial output is never reported as success. -/
theorem timeout_failure (t : Task) (e : Nat) (h : t.output = "") :
    (runTask t (RunOutcome.timedOut e)).status = "failed"
    ∧ (runTask t (RunOutcome.timedOut e)).error = timeout_msg
    ∧ (runTask t (RunOutcome.timedOut e)).error ≠ ""
    ∧ (runTask t (RunOutcome.timedOut e)).output = "" := by
  refine ⟨rfl, rfl, timeout_msg_ne_empty, ?_⟩
  exact h

theorem timeout_failure_witness :
    (runTask (Task.init "task_c8w" 4 "import time\ntime.sleep(120)")
        (RunOutcome.timedOut 60)).status = "failed"
    ∧ (runTask (Task.init "task_c8w" 4 "import time\ntime.sleep(120)")
        (RunOutcome.timedOut 60)).error = timeout_msg
    ∧ (runTask (Task.init "task_c8w" 4 "import time\ntime.sleep(120)")
        (RunOutcome.timedOut 60)).error ≠ ""
    ∧ (runTask (Task.init "task_c8w" 4 "import time\ntime.sleep(120)")
        (RunOutcome.timedOut 60)).output = "" :=
  timeout_failure (Task.init "task_c8w" 4 "import time\ntime.sleep(120)")
    60 rfl

/-- C9, counterexample: a submission whose source text starts with a
shell-style sentinel character is nevertheless written to a temporary file
and run by the interpreter — the spawned command is `Cmd.interp`, never a
shell invocation, so no shell mode is derived from the first character. -/
theorem shell_mode_cex :
    (execute_task (Task.init "task_c9" 1 "!echo hi") "/tmp/tmp123.py"
        (RunOutcome.finished 0 "hi\n" "" 1 2) true).2
      = [Effect.createTemp "/tmp/tmp123.py" "!echo hi",
         Effect.spawn (Cmd.interp "/tmp/tmp123.py"),
         Effect.removeTemp "/tmp/tmp123.py" true]
    ∧ ((execute_task (Task.init "task_c9" 1 "!echo hi") "/tmp/tmp123.py"
        (RunOutcome.finished 0 "hi\n" "" 1 2) true).2.all
          fun e => !isShellSpawn e) = true :=
  ⟨rfl, rfl⟩

/-- C9, amended: there is no execution mode: every Task, whatever its first
character, has its source text written verbatim to the temporary file and
passed to the interpreter; the trace never contains a shell spawn. -/
theorem interpreted_only (t : Task) (p : String) (o : RunOutcome)
    (rOk : Bool) :
    Effect.createTemp p t.code ∈ (execute_task t p o rOk).2
    ∧ Effect.spawn (Cmd.interp p) ∈ (execute_task t p o rOk).2
    ∧ ((execute_task t p o rOk).2.all fun e => !isShellSpawn e) = true
    ∧ (execute_task t p o rOk).2 = execute_task_effects t p rOk := by
  refine ⟨?_, ?_, rfl, rfl⟩
  · simp [execute_task, execute_task_effects]
  · simp [execute_task, execute_task_effects]

/-- C7: evaluation of the code at the failing input.  After a task completes
normally with an elapsed duration of 5 units, the task's own
`execution_time` is 5 and the task is terminal, yet the system-wide
`total_execution_time` counter is still 0 (no code path ever increments it,
so the dashboard's average is always computed from 0); after a timeout the
terminal task's `execution_time` is still 0 even though engine time was
spent. -/
theorem cumulative_time_never_updated :
    c7_done.system_stats.total_execution_time = 0
    ∧ (get_task c7_done "t1").map Task.execution_time = some 5
    ∧ (get_task c7_done "t1").map (fun t => isTerminal t.status) = some true
    ∧ c7_done.system_stats.successful_tasks = 1
    ∧ c7_timeout.system_stats.total_execution_time = 0
    ∧ (get_task c7_timeout "t2").map Task.execution_time = some 0
    ∧ (get_task c7_timeout "t2").map Task.status = some "failed" :=
  ⟨rfl, rfl, rfl, rfl, rfl, rfl, rfl⟩

/-- C1, counterexample: right after `add_task` returns (a reachable state),
`total_tasks` is already 1 while no Task has reached a terminal status — the
total counter counts submissions, incremented by `add_task` on the
submission path (src/main.py line 98), not by the worker on terminal
transition. -/
theorem total_counts_submissions_cex :
    Reachable c1_submitted
    ∧ c1_submitted.system_stats.total_tasks = 1
    ∧ countTerminal c1_submitted.tasks = 0 :=
  ⟨Reachable.step _ Reachable.init rfl, rfl, rfl⟩

/-- C1, amended: in every reachable state `total_tasks` equals the number of
Tasks ever submitted (the size of the task map), the worker-maintained
`successful_tasks + failed_tasks` equals the number of Tasks that have
reached a terminal status, and all four system-wide counters are
monotonically non-decreasing under every step. -/
theorem system_stats_counters (s : BotState) (h : Reachable s) :
    s.system_stats.total_tasks = s.tasks.length
    ∧ s.system_stats.successful_tasks + s.system_stats.failed_tasks
        = countTerminal s.tasks
    ∧ (∀ op : Op,
        s.system_stats.total_tasks ≤ (step s op).system_stats.total_tasks
        ∧ s.system_stats.successful_tasks
            ≤ (step s op).system_stats.successful_tasks
        ∧ s.system_stats.failed_tasks
            ≤ (step s op).system_stats.failed_tasks
        ∧ s.system_stats.total_execution_time
            ≤ (step s op).system_stats.total_execution_time) := by
  have hInv := inv_of_reachable s h
  refine ⟨hInv.total, hInv.termCount, ?_⟩
  intro op
  cases op with
  | add task_id user_id username now code =>
      exact ⟨Nat.le_succ _, Nat.le_refl _, Nat.le_refl _, Nat.le_refl _⟩
  | claim =>
      rcases hq : s.task_queue with _ | ⟨hd, rest⟩
      · rw [step_claim_eq_nil s hq]
        exact ⟨Nat.le_refl _, Nat.le_refl _, Nat.le_refl _, Nat.le_refl _⟩
      · cases hc : s.current with
        | some c =>
            rw [step_claim_eq_busy s c hc]
            exact ⟨Nat.le_refl _, Nat.le_refl _, Nat.le_refl _, Nat.le_refl _⟩
        | none =>
            rw [step_claim_eq s hd rest hq hc]
            exact ⟨Nat.le_refl _, Nat.le_refl _, Nat.le_refl _, Nat.le_refl _⟩
  | finish sp o rOk =>
      cases hc : s.current with
      | none =>
          rw [step_finish_eq_none s sp o rOk hc]
          exact ⟨Nat.le_refl _, Nat.le_refl _, Nat.le_refl _, Nat.le_refl _⟩
      | some c =>
          rw [step_finish_eq s c sp o rOk hc]
          exact statsAfterExec_le s.system_stats o

theorem system_stats_counters_witness :
    c1_submitted.system_stats.total_tasks = c1_submitted.tasks.length
    ∧ c1_submitted.system_stats.successful_tasks
        + c1_submitted.system_stats.failed_tasks
      = countTerminal c1_submitted.tasks :=
  ⟨(system_stats_counters c1_submitted
      (Reachable.step _ Reachable.init rfl)).1,
   (system_stats_counters c1_submitted
      (Reachable.step _ Reachable.init rfl)).2.1⟩

/-- C3: the history held by any reachable state never exceeds
`TASK_HISTORY_SIZE`; the worker's history update is exactly `record`; and
recording any sequence of terminal tasks into an empty history leaves
precisely the last `TASK_HISTORY_SIZE` of them, in completion order, the
earliest ones evicted oldest-first. -/
theorem history_capacity (s : BotState) (h : Reachable s) (ts : List Task) :
    s.task_history.length ≤ TASK_HISTORY_SIZE
    ∧ (∀ c sp o rOk, s.current = some c →
        (step s (Op.finish sp o rOk)).task_history
          = record s.task_history (finalizeTask c o))
    ∧ ts.foldl record [] = ts.drop (ts.length - TASK_HISTORY_SIZE) := by
  refine ⟨(inv_of_reachable s h).histBound, ?_, ?_⟩
  · intro c sp o rOk hc
    rw [step_finish_eq s c sp o rOk hc]
  · have h2 := foldl_record_eq ts [] (by simp)
    simpa using h2

theorem history_capacity_witness :
    initState.task_history.length ≤ TASK_HISTORY_SIZE
    ∧ c3_sample.foldl record []
        = c3_sample.drop (c3_sample.length - TASK_HISTORY_SIZE) :=
  ⟨(history_capacity initState Reachable.init c3_sample).1,
   (history_capacity initState Reachable.init c3_sample).2.2⟩

/-- C2: across any collision-free step from a reachable state, each task's
status only moves forward along `pending → running → terminal`: the rank
never decreases, a terminal task is never changed again, no task returns to
`pending`, a task can only become terminal if it was already terminal or was
`running` (never straight from `pending`), and a task can only be `running`
if it was `running` or `pending` before. -/
theorem task_status_forward (s : BotState) (h : Reachable s) (op : Op)
    (hok : stepOk s op) (id : String) (t t2 : Task)
    (ht : get_task s id = some t)
    (ht2 : get_task (step s op) id = some t2) :
    statusRank t.status ≤ statusRank t2.status
    ∧ (isTerminal t.status = true → t2 = t)
    ∧ (t2.status = "pending" → t2 = t)
    ∧ (isTerminal t2.status = true
        → isTerminal t.status = true ∨ t.status = "running")
    ∧ (t2.status = "running"
        → t.status = "running" ∨ t.status = "pending") := by
  have hInv := inv_of_reachable s h
  simp only [get_task] at ht ht2
  have same :
      t2 = t →
      statusRank t.status ≤ statusRank t2.status
      ∧ (isTerminal t.status = true → t2 = t)
      ∧ (t2.status = "pending" → t2 = t)
      ∧ (isTerminal t2.status = true
          → isTerminal t.status = true ∨ t.status = "running")
      ∧ (t2.status = "running"
          → t.status = "running" ∨ t.status = "pending") := by
    intro he
    subst he
    exact ⟨Nat.le_refl _, fun _ => rfl, fun _ => rfl,
      fun h2 => Or.inl h2, fun h2 => Or.inl h2⟩
  cases op with
  | add task_id user_id username now code =>
      have hok' : lookupAssoc s.tasks task_id = none := hok
      have hne : id ≠ task_id := by
        intro he
        rw [he, hok'] at ht
        exact Option.noConfusion ht
      rw [step_add_eq] at ht2
      have e : lookupAssoc
          (add_task s task_id user_id username now code).tasks id
          = lookupAssoc s.tasks id := by
        show lookupAssoc (insertAssoc s.tasks task_id _) id = _
        exact lookup_insertAssoc_ne s.tasks task_id id _ hne
      rw [e, ht] at ht2
      injection ht2 with h3
      exact same h3.symm
  | claim =>
      rcases hq : s.task_queue with _ | ⟨hd, rest⟩
      · rw [step_claim_eq_nil s hq, ht] at ht2
        injection ht2 with h3
        exact same h3.symm
      · cases hc : s.current with
        | some c =>
            rw [step_claim_eq_busy s c hc, ht] at ht2
            injection ht2 with h3
            exact same h3.symm
        | none =>
            rw [step_claim_eq s hd rest hq hc] at ht2
            have ht2' : lookupAssoc (insertAssoc s.tasks hd.id
                { hd with status := "running" }) id = some t2 := ht2
            by_cases hid : id = hd.id
            · subst hid
              have hmem : hd ∈ s.task_queue := by
                rw [hq]
                exact List.mem_cons_self _ _
              have halias := hInv.qAlias hd hmem
              have hpend := hInv.qPending hd hmem
              have hthd : t = hd := by
                rw [halias] at ht
                injection ht with h3
                exact h3.symm
              have ht2e : t2 = { hd with status := "running" } := by
                rw [lookup_insertAssoc_self] at ht2'
                injection ht2' with h3
                exact h3.symm
              have hts : t.status = "pending" := by
                rw [hthd]
                exact hpend
              have ht2s : t2.status = "running" := by
                rw [ht2e]
              refine ⟨?_, ?_, ?_, ?_, ?_⟩
              · rw [hts, ht2s]
                decide
              · rw [hts]
                intro h2
                exact absurd h2 (by decide)
              · rw [ht2s]
                intro h2
                exact absurd h2 (by decide)
              · intro h2
                rw [ht2s] at h2
                exact absurd h2 (by decide)
              · intro _
                exact Or.inr hts
            · rw [lookup_insertAssoc_ne s.tasks hd.id id _ hid, ht] at ht2'
              injection ht2' with h3
              exact same h3.symm
  | finish sp o rOk =>
      cases hc : s.current with
      | none =>
          rw [step_finish_eq_none s sp o rOk hc, ht] at ht2
          injection ht2 with h3
          exact same h3.symm
      | some c =>
          rw [step_finish_eq s c sp o rOk hc] at ht2
          have ht2' : lookupAssoc (insertAssoc s.tasks (finalizeTask c o).id
              (finalizeTask c o)) id = some t2 := ht2
          have hrun := hInv.cRunning c hc
          have halias := hInv.cAlias c hc
          have hid0 : (finalizeTask c o).id = c.id := finalizeTask_id c o
          by_cases hid : id = c.id
          · subst hid
            have hct : t = c := by
              rw [halias] at ht
              injection ht with h3
              exact h3.symm
            have ht2e : t2 = finalizeTask c o := by
              rw [hid0, lookup_insertAssoc_self] at ht2'
              injection ht2' with h3
              exact h3.symm
            have hterm : isTerminal t2.status = true := by
              rw [ht2e]
              exact finalizeTask_terminal c o
            have hts : t.status = "running" := by
              rw [hct]
              exact hrun
            refine ⟨?_, ?_, ?_, ?_, ?_⟩
            · rw [hts, statusRank_of_terminal t2.status hterm]
              decide
            · rw [hts]
              intro h2
              exact absurd h2 (by decide)
            · intro h2
              rw [h2] at hterm
              exact absurd hterm (by decide)
            · intro _
              exact Or.inr hts
            · intro h2
              rw [h2] at hterm
              exact absurd hterm (by decide)
          · rw [hid0, lookup_insertAssoc_ne s.tasks c.id id _ hid, ht]
              at ht2'
            injection ht2' with h3
            exact same h3.symm

theorem task_status_forward_witness :
    statusRank (newTask "w2" 3 "bob" 0 "print(2)").status
      ≤ statusRank
          ({ newTask "w2" 3 "bob" 0 "print(2)" with
              status := "running" } : Task).status :=
  (task_status_forward c2_submitted (Reachable.step _ Reachable.init rfl)
    Op.claim trivial "w2" (newTask "w2" 3 "bob" 0 "print(2)")
    { newTask "w2" 3 "bob" 0 "print(2)" with status := "running" }
    rfl rfl).1

/-- C10: the id-to-Task map only grows.  Across any collision-free step from
a reachable state, every id already registered by `add_task` still resolves
via `get_task` to a task with the same identity fields (id, owner, source
text — only the worker-owned lifecycle fields ever change), the map never
shrinks, and every fresh submission grows it by exactly one entry — so the
map grows without bound and is never pruned, even after history eviction. -/
theorem task_map_persistent (s : BotState) (h : Reachable s) (op : Op)
    (hok : stepOk s op) (id : String) (t : Task)
    (ht : get_task s id = some t) :
    (∃ t2, get_task (step s op) id = some t2
        ∧ t2.id = t.id ∧ t2.user_id = t.user_id ∧ t2.code = t.code)
    ∧ s.tasks.length ≤ (step s op).tasks.length
    ∧ (∀ id2 u name now c2, lookupAssoc s.tasks id2 = none →
        (step s (Op.add id2 u name now c2)).tasks.length
          = s.tasks.length + 1) := by
  have hInv := inv_of_reachable s h
  simp only [get_task] at ht ⊢
  refine ⟨?_, ?_, ?_⟩
  · cases op with
    | add task_id user_id username now code =>
        have hok' : lookupAssoc s.tasks task_id = none := hok
        have hne : id ≠ task_id := by
          intro he
          rw [he, hok'] at ht
          exact Option.noConfusion ht
        refine ⟨t, ?_, rfl, rfl, rfl⟩
        rw [step_add_eq]
        show lookupAssoc (insertAssoc s.tasks task_id _) id = some t
        rw [lookup_insertAssoc_ne s.tasks task_id id _ hne]
        exact ht
    | claim =>
        rcases hq : s.task_queue with _ | ⟨hd, rest⟩
        · refine ⟨t, ?_, rfl, rfl, rfl⟩
          rw [step_claim_eq_nil s hq]
          exact ht
        · cases hc : s.current with
          | some c =>
              refine ⟨t, ?_, rfl, rfl, rfl⟩
              rw [step_claim_eq_busy s c hc]
              exact ht
          | none =>
              by_cases hid : id = hd.id
              · subst hid
                have hmem : hd ∈ s.task_queue := by
                  rw [hq]
                  exact List.mem_cons_self _ _
                have halias := hInv.qAlias hd hmem
                have hthd : t = hd := by
                  rw [halias] at ht
                  injection ht with h3
                  exact h3.symm
                refine ⟨{ hd with status := "running" }, ?_, ?_, ?_, ?_⟩
                · rw [step_claim_eq s hd rest hq hc]
                  show lookupAssoc (insertAssoc s.tasks hd.id
                      { hd with status := "running" }) hd.id = _
                  exact lookup_insertAssoc_self s.tasks hd.id _
                · rw [hthd]
                · rw [hthd]
                · rw [hthd]
              · refine ⟨t, ?_, rfl, rfl, rfl⟩
                rw [step_claim_eq s hd rest hq hc]
                show lookupAssoc (insertAssoc s.tasks hd.id
                    { hd with status := "running" }) id = some t
                rw [lookup_insertAssoc_ne s.tasks hd.id id _ hid]
                exact ht
    | finish sp o rOk =>
        cases hc : s.current with
        | none =>
            refine ⟨t, ?_, rfl, rfl, rfl⟩
            rw [step_finish_eq_none s sp o rOk hc]
            exact ht
        | some c =>
            have halias := hInv.cAlias c hc
            have hid0 : (finalizeTask c o).id = c.id := finalizeTask_id c o
            by_cases hid : id = c.id
            · subst hid
              have hct : t = c := by
                rw [halias] at ht
                injection ht with h3
                exact h3.symm
              refine ⟨finalizeTask c o, ?_, ?_, ?_, ?_⟩
              · rw [step_finish_eq s c sp o rOk hc]
                show lookupAssoc (insertAssoc s.tasks (finalizeTask c o).id
                    (finalizeTask c o)) c.id = _
                rw [hid0]
                exact lookup_insertAssoc_self s.tasks c.id _
              · rw [hct, hid0]
              · rw [hct, finalizeTask_user_id]
              · rw [hct, finalizeTask_code]
            · refine ⟨t, ?_, rfl, rfl, rfl⟩
              rw [step_finish_eq s c sp o rOk hc]
              show lookupAssoc (insertAssoc s.tasks (finalizeTask c o).id
                  (finalizeTask c o)) id = some t
              rw [hid0, lookup_insertAssoc_ne s.tasks c.id id _ hid]
              exact ht
  · cases op with
    | add task_id user_id username now code =>
        have hok' : lookupAssoc s.tasks task_id = none := hok
        rw [step_add_eq]
        show s.tasks.length ≤ (insertAssoc s.tasks task_id _).length
        rw [length_insertAssoc_new s.tasks task_id _ hok']
        exact Nat.le_succ _
    | claim =>
        rcases hq : s.task_queue with _ | ⟨hd, rest⟩
        · rw [step_claim_eq_nil s hq]
        · cases hc : s.current with
          | some c => rw [step_claim_eq_busy s c hc]
          | none =>
              have hmem : hd ∈ s.task_queue := by
                rw [hq]
                exact List.mem_cons_self _ _
              have halias := hInv.qAlias hd hmem
              rw [step_claim_eq s hd rest hq hc]
              show s.tasks.length ≤ (insertAssoc s.tasks hd.id
                  { hd with status := "running" }).length
              rw [length_insertAssoc_mem s.tasks hd.id hd _ halias]
    | finish sp o rOk =>
        cases hc : s.current with
        | none => rw [step_finish_eq_none s sp o rOk hc]
        | some c =>
            have halias := hInv.cAlias c hc
            rw [step_finish_eq s c sp o rOk hc]
            show s.tasks.length ≤ (insertAssoc s.tasks
                (finalizeTask c o).id (finalizeTask c o)).length
            rw [finalizeTask_id, length_insertAssoc_mem s.tasks c.id c _
              halias]
  · intro id2 u name now c2 hnone
    rw [step_add_eq]
    show (insertAssoc s.tasks id2 _).length = s.tasks.length + 1
    exact length_insertAssoc_new s.tasks id2 _ hnone

theorem task_map_persistent_witness :
    (∃ t2, get_task (step c10_submitted Op.claim) "p10" = some t2
        ∧ t2.id = (newTask "p10" 9 "carol" 0 "print(3)").id
        ∧ t2.user_id = (newTask "p10" 9 "carol" 0 "print(3)").user_id
        ∧ t2.code = (newTask "p10" 9 "carol" 0 "print(3)").code)
    ∧ c10_submitted.tasks.length
        ≤ (step c10_submitted Op.claim).tasks.length :=
  ⟨(task_map_persistent c10_submitted (Reachable.step _ Reachable.init rfl)
      Op.claim trivial "p10" (newTask "p10" 9 "carol" 0 "print(3)") rfl).1,
   (task_map_persistent c10_submitted (Reachable.step _ Reachable.init rfl)
      Op.claim trivial "p10" (newTask "p10" 9 "carol" 0 "print(3)") rfl).2.1⟩

end X3
